import Mathlib

/-!
Verification of the version-tag-and-release tool (a build-tool plugin that
creates a remote release for a project version and uploads build artifacts).

The development shallowly embeds the program's core: the hand-rolled Git
remote-configuration parser, the version normalizer, the release/asset
client and the orchestrating `handle` entry point.  Python strings are
modelled as `List Char`; fallible code (list indexing that can raise
`IndexError`) returns `Option`; the filesystem, environment and network
responses are supplied through an explicit environment record, and the
network requests the run issues are returned alongside its exit code and
printed lines.
-/

/-! ## Python string primitives -/

/-- Whitespace characters stripped by Python's `str.strip()` (ASCII range). -/
def pyIsSpace (c : Char) : Bool :=
  c = ' ' || c = '\t' || c = '\n' || c = '\x0d' || c = Char.ofNat 11 || c = Char.ofNat 12

/-- Python `s.strip()`: remove leading and trailing whitespace. -/
def pyStrip (s : List Char) : List Char :=
  ((s.dropWhile pyIsSpace).reverse.dropWhile pyIsSpace).reverse

/-- Python `s.split(sep)` for a one-character separator: the segments of `s`
between occurrences of `c`, empty segments kept.  Always nonempty. -/
def pySplit (c : Char) : List Char → List (List Char)
  | [] => [[]]
  | x :: xs =>
    match pySplit c xs with
    | [] => [[]]
    | h :: t => if x = c then [] :: h :: t else (x :: h) :: t

/-- If `pat` is a literal leading part of `s`, return the remainder of `s`. -/
def dropStart : List Char → List Char → Option (List Char)
  | [], s => some s
  | _ :: _, [] => none
  | p :: ps, x :: xs => if p = x then dropStart ps xs else none

/-- Python `os.path.basename`: the part of the path after the last `/`. -/
def pyBasename (s : List Char) : List Char :=
  (pySplit '/' s).getLastD []

/-- Python `os.path.splitext(p)[-1]`: the extension of the path, i.e. the part
of the final path component from its last dot on, provided some character
before that dot in the component is not itself a dot (so a leading-dot file
name such as `.bashrc` has no extension). -/
def pySplitextExt (s : List Char) : List Char :=
  let b := pyBasename s
  let r := b.reverse
  let v := r.takeWhile (fun c => c ≠ '.')
  if v.length = r.length then []
  else if (r.drop (v.length + 1)).any (fun c => c ≠ '.') then '.' :: v.reverse
  else []

/-- Python `str.isnumeric` restricted to the ASCII digits (the only numeric
characters appearing in version strings). -/
def pyIsNumeric (c : Char) : Bool := c.isDigit

/-- Lexicographic comparison of character lists by code point, the order
Python uses to compare strings (and `sorted` uses on paths). -/
def charListLe : List Char → List Char → Bool
  | [], _ => true
  | _ :: _, [] => false
  | a :: as, b :: bs => if a = b then charListLe as bs else decide (a < b)

/-- Python `<=` on strings. -/
def pyLe (a b : String) : Bool := charListLe a.data b.data

/-! ## Data model -/

/-- Represents an instance of a Git remote, read from the configuration. -/
structure GitRemote where
  name : List Char := []
  url : List Char := []
  repo_name : List Char := []
  repo_owner : List Char := []
deriving Repr, DecidableEq

/-- Represents an instance of a GitHub release. -/
structure GitHubRelease where
  uid : Int := -1
  url : String := ""
  url_upload : String := ""
deriving Repr, DecidableEq

/-! ## The remote-configuration parser (`__find_git_remotes`) -/

/-- Characters matched by the `[a-z]` class of the remote-header pattern. -/
def isLowerAZ (c : Char) : Bool := 'a' ≤ c && c ≤ 'z'

/-- `re.match` of the pattern `\[remote "([a-z]*)"\]\n` against a line:
the line must begin with `[remote "`, a (possibly empty) run of lowercase
letters — the captured name — then `"]` and a newline. -/
def matchRemoteHeader (l : List Char) : Option (List Char) :=
  match dropStart "[remote \"".data l with
  | none => none
  | some r1 =>
    let nm := r1.takeWhile isLowerAZ
    if ("\"]\n".data).isPrefixOf (r1.dropWhile isLowerAZ) then some nm else none

/-- The test `lines[i].strip().startswith("url = ")` of the inner loop. -/
def isUrlLine (l : List Char) : Bool := ("url = ".data).isPrefixOf (pyStrip l)

/-- The value recorded for a url line: `lines[i].split("=")[-1].strip()`. -/
def urlValueOf (l : List Char) : List Char := pyStrip ((pySplit '=' l).getLastD [])

/-- One step of the inner URL-collecting loop: a line whose stripped form
starts with `url = ` overwrites the collected URL with the stripped text
after the line's last `=`; any other line leaves it unchanged. -/
def updateUrl (url l : List Char) : List Char :=
  if isUrlLine l then urlValueOf l else url

/-- Owner/repository extraction from a remote URL (the raw repository
segment, before the `.git`-stripping step).  `none` models the `IndexError`
raised when the URL lacks the expected `/`-separated segments:
for an SSH URL (`git@` leading part) the owner and repository are the first
two `/`-segments of the text after the last `:`; otherwise they are the last
two `/`-segments of the whole URL. -/
def parseOwnerRepo (url : List Char) : Option (List Char × List Char) :=
  if ("git@".data).isPrefixOf url then
    match pySplit '/' ((pySplit ':' url).getLastD []) with
    | o :: r :: _ => some (o, r)
    | _ => none
  else
    match (pySplit '/' url).reverse with
    | r :: o :: _ => some (o, r)
    | _ => none

/-- Remove a trailing `.git` from the repository name if it exists
(`remote_repo_name[:-4]`, applied once). -/
def stripGitSuffix (s : List Char) : List Char :=
  if (".git".data).isSuffixOf s then s.take (s.length - 4) else s

/-- Close a section: an empty collected URL skips the section; otherwise the
descriptor is built, with `none` propagating a URL-parsing `IndexError`. -/
def finishSection (nm url : List Char) : Option (Option GitRemote) :=
  if url = [] then some none
  else
    match parseOwnerRepo url with
    | none => none
    | some (o, r) =>
      some (some { name := nm, url := url, repo_name := stripGitSuffix r, repo_owner := o })

/-- State of the scan: between sections, or inside a remote section with the
section's name and the URL collected so far. -/
inductive ScanMode where
  | looking : ScanMode
  | inSection : List Char → List Char → ScanMode

/-- The line scan of `__find_git_remotes`.  Outside a section, each line is
tested against the remote-header pattern.  Inside a section, lines are fed
to the URL collector until a line starting with `[` closes the section (that
line is then itself examined as a potential header); reaching the end of the
input while inside a section models the out-of-range `lines[i]` access of
the inner `while` loop and yields `none`. -/
def scanRemotes : ScanMode → List (List Char) → Option (List GitRemote)
  | .looking, [] => some []
  | .looking, l :: rest =>
    match matchRemoteHeader l with
    | some nm => scanRemotes (.inSection nm []) rest
    | none => scanRemotes .looking rest
  | .inSection _ _, [] => none
  | .inSection nm url, l :: rest =>
    if ("[".data).isPrefixOf l then
      match finishSection nm url with
      | none => none
      | some em =>
        let cont :=
          match matchRemoteHeader l with
          | some nm2 => scanRemotes (.inSection nm2 []) rest
          | none => scanRemotes .looking rest
        match em with
        | none => cont
        | some r => cont.map (r :: ·)
    else scanRemotes (.inSection nm (updateUrl url l)) rest

/-- Finds remotes in the Git configuration (`__find_git_remotes`); `none`
models an uncaught `IndexError`. -/
def findGitRemotes (lines : List (List Char)) : Option (List GitRemote) :=
  scanRemotes .looking lines

example :
    findGitRemotes
      ["[remote \"origin\"]\n".data, "\turl = git@github.com:o/r.git\n".data, "[branch]\n".data]
    = some [{ name := "origin".data, url := "git@github.com:o/r.git".data,
              repo_name := "r".data, repo_owner := "o".data }] := by decide

example :
    findGitRemotes
      ["[remote \"origin\"]\n".data, "\turl = git@github.com:o/r.git\n".data]
    = none := by decide

/-! ## Version normalization (`handle`, the short-version block) -/

/-- The short version used for matching artifact filenames: if the version
contains a hyphen, the segment before the first hyphen, then the first
character of the segment after it, then that segment's numeric characters;
otherwise the version itself.  `none` models the `IndexError` raised by
`split_version[1][0]` when the segment after the first hyphen is empty. -/
def shortVersionOf (version : String) : Option String :=
  if '-' ∈ version.data then
    let split_version := pySplit '-' version.data
    match split_version.getD 1 [] with
    | [] => none
    | c :: cs =>
      some (String.mk (split_version.headD [] ++ [c] ++ (c :: cs).filter pyIsNumeric))
  else some version

/-- The tag name passed to release creation: `"v" + version`. -/
def tagVersion (version : String) : String := "v" ++ version

/-! ## The release client (`__github_create_release`, `__github_upload_asset`) -/

/-- The parsed JSON of the release-creation response: the HTTP status, the
pretty-printed body (as used in the error message), and — for a 201
response — the `id`, `url` and `upload_url` fields. -/
structure CreateResponse where
  status : Nat := 201
  bodyJson : String := ""
  uid : Int := 1
  url : String := ""
  uploadUrl : String := ""

/-- The body shape of an asset-upload request: multipart form data under a
named field, or a raw body with an explicit Content-Type header. -/
inductive UploadBody where
  | multipart : String → String → String → UploadBody
  | raw : String → UploadBody
deriving Repr, DecidableEq

/-- A network request issued by the run. -/
inductive NetRequest where
  | createRelease : (url username token tagName targetCommitish : String) →
      (generateNotes prerelease : Bool) → NetRequest
  | uploadAsset : (url nameParam username token : String) → UploadBody → NetRequest
deriving Repr, DecidableEq

/-- Creates a release on GitHub (`__github_create_release`): returns either
the release object (201) or the error message, together with the request it
posts. -/
def githubCreateRelease (remote : GitRemote) (version username token : String)
    (pre_release : Bool) (resp : CreateResponse) : (GitHubRelease ⊕ String) × NetRequest :=
  let github_api_releases :=
    "https://api.github.com/repos/" ++ String.mk remote.repo_owner ++ "/"
      ++ String.mk remote.repo_name ++ "/releases"
  let req := NetRequest.createRelease github_api_releases username token version "main"
    true pre_release
  if resp.status ≠ 201 then
    (Sum.inr ("Request failed with status code " ++ toString resp.status ++ ":\n"
      ++ resp.bodyJson), req)
  else
    (Sum.inl { uid := resp.uid, url := resp.url,
               url_upload := String.mk ((pySplit '{' resp.uploadUrl.data).headD []) }, req)

/-- The error message returned for a non-201 asset-upload response. -/
def uploadFailMsg (status : Nat) (bodyJson headers : String) : String :=
  "Request failed with status code " ++ toString status ++ ":\n" ++ bodyJson ++ "\n" ++ headers

/-- Upload an asset to an existing release (`__github_upload_asset`).
`fsExists` models the `os.path.exists`/`isfile` check, `status`, `bodyJson`
and `headers` the server response.  Returns `none` on success or the error
message, together with the requests posted (none when the file is missing).
The content type is looked up by extension (`.gz` mapping to gzip); the
octet-stream default is sent as multipart form data under the field `file`,
any other content type as a raw body, and the asset name query parameter is
the file's base name. -/
def githubUploadAsset (fsExists : Bool) (status : Nat) (bodyJson headers : String)
    (asset : String) (release : GitHubRelease) (username token : String) :
    Option String × List NetRequest :=
  if !fsExists then (some "Provided asset file doesn't exist or isn't a file.", [])
  else
    let content_type_bytes := "application/octet-stream"
    let content_type :=
      if pySplitextExt asset.data = ".gz".data then "application/gzip" else content_type_bytes
    let body :=
      if content_type = content_type_bytes then UploadBody.multipart "file" "file" content_type
      else UploadBody.raw content_type
    let req := NetRequest.uploadAsset release.url_upload (String.mk (pyBasename asset.data))
      username token body
    if status ≠ 201 then (some (uploadFailMsg status bodyJson headers), [req])
    else (none, [req])

/-! ## The orchestrator (`handle`) -/

/-- The environment a run observes: the host configuration (version field),
the filesystem (git config presence and contents, built files found by the
two globs, per-file existence), the process environment (token), the
subprocess result (username), the CLI flag, and the network's responses. -/
structure RunEnv where
  version : Option String
  hasGitConfig : Bool
  gitConfigLines : List (List Char)
  githubToken : Option String
  gitUsername : String
  preRelease : Bool
  createResp : CreateResponse
  fileExists : String → Bool
  uploadStatus : String → Nat
  uploadBody : String → String
  uploadHeaders : String → String
  wheels : String → List String
  tars : String → List String

/-- The order `sorted` uses on the merged glob results. -/
def pyOrder (a b : String) : Prop := pyLe a b = true

instance : DecidableRel pyOrder := fun a b => inferInstanceAs (Decidable (pyLe a b = true))

/-- Files created by `poetry build` (`__get_built_files`): the results of the
wheel and source-archive globs for the given version, merged and sorted
(`pyOrder` is a total order on strings, so any correct sort — here an
insertion sort — produces the same list as Python's `sorted`). -/
def getBuiltFiles (env : RunEnv) (version : String) : List String :=
  (env.wheels version ++ env.tars version).insertionSort pyOrder

/-- The asset-upload loop of `handle`: for each file, a progress line, the
upload attempt, then a " Failed." line plus the error detail or a " Done."
line; failures do not stop the loop. -/
def uploadAssets (env : RunEnv) (release : GitHubRelease) (username token : String) :
    Nat → List String → List NetRequest × List String
  | _, [] => ([], [])
  | i, f :: fs =>
    let progress := "  " ++ toString (i + 1) ++ ". Uploading '"
      ++ String.mk (pyBasename f.data) ++ "'..."
    let r := githubUploadAsset (env.fileExists f) (env.uploadStatus f) (env.uploadBody f)
      (env.uploadHeaders f) f release username token
    let rest := uploadAssets env release username token (i + 1) fs
    (r.2 ++ rest.1,
     (progress :: (match r.1 with
       | some err => [" Failed.", err]
       | none => [" Done."])) ++ rest.2)

/-- The message printed when the credential token is absent. -/
def tokenMissingMsg : String :=
  "In order to authenticate with GitHub, a PAT needs to be specified through a"
    ++ " 'GITHUB_TOKEN' environment variable."

/-- The two lines reporting successful release creation. -/
def releaseCreatedLines (remote : GitRemote) (version : String) : List String :=
  ["Release v" ++ version ++ " created and accessable through the following URL:",
   "  https://github.com/" ++ String.mk remote.repo_owner ++ "/" ++ String.mk remote.repo_name
     ++ "/releases/tag/v" ++ version]

/-- The line announcing how many assets will be attached. -/
def attachCountMsg (n : Nat) : String :=
  "Attempting to attach " ++ toString n ++ " asset(s) to the release."

/-- Command entry point (`handle`): returns the exit code, the network
requests issued, and the lines printed, or `none` when the run dies with an
uncaught exception (short-version `IndexError`, parser `IndexError`). -/
def handle (env : RunEnv) : Option (Nat × List NetRequest × List String) :=
  match env.version with
  | none => some (1, [], ["Missing 'version' field in configuration."])
  | some version =>
    match shortVersionOf version with
    | none => none
    | some short_version =>
      if env.hasGitConfig = false then
        some (2, [], ["Working directory is not a git repository."])
      else
        match findGitRemotes env.gitConfigLines with
        | none => none
        | some remotes =>
          match remotes with
          | [] => some (3, [], ["Found 0 git remotes."])
          | _ :: _ :: _ =>
            some (99, [], ["Found multiple git remotes, which is currently not supported."])
          | [remote] =>
            match env.githubToken with
            | none => some (4, [], [tokenMissingMsg])
            | some github_token =>
              let github_username := env.gitUsername
              let cr := githubCreateRelease remote (tagVersion version) github_username
                github_token env.preRelease env.createResp
              match cr.1 with
              | Sum.inr err => some (5, [cr.2], [err])
              | Sum.inl github_release =>
                let files := getBuiltFiles env short_version
                let up := uploadAssets env github_release github_username github_token 0 files
                some (0, cr.2 :: up.1,
                  releaseCreatedLines remote version
                    ++ (if files.length > 0 then [attachCountMsg files.length] else [])
                    ++ up.2)

example : shortVersionOf "1.2.0-alpha.3" = some "1.2.0a3" := by decide

example : shortVersionOf "1.2.0-" = none := by decide

example : shortVersionOf "1.2.0" = some "1.2.0" := by rfl

/-! ## Helper lemmas about the string primitives -/

/-- Decidable inequality test on characters, used to phrase segments. -/
def neChar (c : Char) : Char → Bool := fun x => decide (x ≠ c)

theorem pySplit_ne_nil (c : Char) (s : List Char) : pySplit c s ≠ [] := by
  cases s with
  | nil => simp [pySplit]
  | cons x xs =>
    simp only [pySplit]
    cases pySplit c xs with
    | nil => simp
    | cons h t =>
      by_cases hx : x = c
      · simp [hx]
      · simp [hx]

theorem pySplit_not_mem (c : Char) (s : List Char) (h : c ∉ s) : pySplit c s = [s] := by
  induction s with
  | nil => rfl
  | cons x xs ih =>
    have hx : ¬x = c := fun hc => h (by simp [hc])
    have hxs : c ∉ xs := fun hc => h (by simp [hc])
    simp only [pySplit, ih hxs]
    simp [hx]

theorem pySplit_sep_append (c : Char) (xs ys : List Char) :
    pySplit c (xs ++ c :: ys) = pySplit c xs ++ pySplit c ys := by
  induction xs with
  | nil =>
    simp only [List.nil_append, pySplit]
    cases hys : pySplit c ys with
    | nil => exact absurd hys (pySplit_ne_nil c ys)
    | cons h t => simp
  | cons x xs ih =>
    rw [List.cons_append]
    simp only [pySplit, ih]
    cases hxs : pySplit c xs with
    | nil => exact absurd hxs (pySplit_ne_nil c xs)
    | cons h t =>
      rw [List.cons_append]
      by_cases hx : x = c
      · simp [hx]
      · simp [hx]

theorem headD_pySplit (c : Char) (s : List Char) :
    (pySplit c s).headD [] = s.takeWhile (neChar c) := by
  induction s with
  | nil => rfl
  | cons x xs ih =>
    simp only [pySplit]
    cases hxs : pySplit c xs with
    | nil => exact absurd hxs (pySplit_ne_nil c xs)
    | cons h t =>
      rw [hxs] at ih
      by_cases hx : x = c
      · subst hx
        simp [List.takeWhile_cons, neChar]
      · have hne : neChar c x = true := by simp [neChar, hx]
        simp [hx, List.takeWhile_cons, hne, ← ih]

theorem takeWhile_all {α : Type} (p : α → Bool) (l : List α) (h : ∀ x ∈ l, p x = true) :
    l.takeWhile p = l := by
  induction l with
  | nil => rfl
  | cons x xs ih =>
    simp [List.takeWhile_cons, h x (by simp), ih (fun y hy => h y (by simp [hy]))]

theorem takeWhile_stop {α : Type} (p : α → Bool) (l1 l2 : List α) (a : α)
    (h1 : ∀ x ∈ l1, p x = true) (h2 : p a = false) :
    (l1 ++ a :: l2).takeWhile p = l1 := by
  induction l1 with
  | nil => simp [List.takeWhile_cons, h2]
  | cons x xs ih =>
    simp [List.cons_append, List.takeWhile_cons, h1 x (by simp),
      ih (fun y hy => h1 y (by simp [hy]))]

theorem exists_last_occurrence (c : Char) (s : List Char) (h : c ∈ s) :
    ∃ u v, s = u ++ c :: v ∧ c ∉ v := by
  induction s with
  | nil => cases h
  | cons x xs ih =>
    by_cases hxs : c ∈ xs
    · obtain ⟨u, v, huv, hv⟩ := ih hxs
      exact ⟨x :: u, v, by simp [huv], hv⟩
    · have hx : x = c := by
        rcases List.mem_cons.mp h with h1 | h2
        · exact h1.symm
        · exact absurd h2 hxs
      exact ⟨[], xs, by simp [hx], hxs⟩

theorem getLastD_pySplit (c : Char) (s : List Char) :
    (pySplit c s).getLastD [] = (s.reverse.takeWhile (neChar c)).reverse := by
  by_cases h : c ∈ s
  · obtain ⟨u, v, huv, hv⟩ := exists_last_occurrence c s h
    subst huv
    rw [pySplit_sep_append, pySplit_not_mem c v hv, List.getLastD_concat]
    rw [List.reverse_append, List.reverse_cons, List.append_assoc, List.singleton_append]
    rw [takeWhile_stop (neChar c) v.reverse u.reverse c
      (fun x hx => by
        simp only [neChar, decide_eq_true_iff, ne_eq]
        exact fun hxc => hv (by rw [← hxc]; exact List.mem_reverse.mp hx))
      (by simp [neChar])]
    simp
  · rw [pySplit_not_mem c s h]
    rw [takeWhile_all (neChar c) s.reverse
      (fun x hx => by
        simp only [neChar, decide_eq_true_iff, ne_eq]
        exact fun hxc => h (by rw [← hxc]; exact List.mem_reverse.mp hx))]
    simp

/-! ## Lemmas about the configuration scan -/

theorem scanRemotes_section_cons (nm url l : List Char) (rest : List (List Char))
    (hb : ("[".data).isPrefixOf l = false) :
    scanRemotes (.inSection nm url) (l :: rest)
      = scanRemotes (.inSection nm (updateUrl url l)) rest := by
  simp [scanRemotes, hb]

theorem scanRemotes_section_append (nm : List Char) (ls : List (List Char)) (url : List Char)
    (rest : List (List Char)) (h : ∀ x ∈ ls, ("[".data).isPrefixOf x = false) :
    scanRemotes (.inSection nm url) (ls ++ rest)
      = scanRemotes (.inSection nm (ls.foldl updateUrl url)) rest := by
  induction ls generalizing url with
  | nil => simp
  | cons l ls ih =>
    rw [List.cons_append, scanRemotes_section_cons nm url l _ (h l (by simp)),
      List.foldl_cons]
    exact ih (updateUrl url l) (fun x hx => h x (by simp [hx]))

theorem foldl_updateUrl_no_url (url : List Char) (ls : List (List Char))
    (h : ∀ x ∈ ls, isUrlLine x = false) : ls.foldl updateUrl url = url := by
  induction ls with
  | nil => rfl
  | cons l ls ih =>
    rw [List.foldl_cons]
    have : updateUrl url l = url := by simp [updateUrl, h l (by simp)]
    rw [this]
    exact ih (fun x hx => h x (by simp [hx]))

/-- Every descriptor the scan emits was built by `finishSection`: its
repository name is the once-stripped second component of the owner/repo
extraction of its URL, and its owner the first component. -/
theorem scanRemotes_fields (lines : List (List Char)) :
    ∀ (mode : ScanMode) (rs : List GitRemote), scanRemotes mode lines = some rs →
    ∀ r ∈ rs, ∃ o raw, parseOwnerRepo r.url = some (o, raw)
      ∧ r.repo_name = stripGitSuffix raw ∧ r.repo_owner = o := by
  induction lines with
  | nil =>
    intro mode rs h r hr
    cases mode with
    | looking =>
      simp only [scanRemotes, Option.some.injEq] at h
      subst h
      cases hr
    | inSection nm url => simp [scanRemotes] at h
  | cons l rest ih =>
    intro mode rs h r hr
    cases mode with
    | looking =>
      simp only [scanRemotes] at h
      cases hm : matchRemoteHeader l with
      | some nm => rw [hm] at h; exact ih _ _ h r hr
      | none => rw [hm] at h; exact ih _ _ h r hr
    | inSection nm url =>
      simp only [scanRemotes] at h
      by_cases hb : ("[".data).isPrefixOf l = true
      · rw [if_pos hb] at h
        cases hf : finishSection nm url with
        | none => rw [hf] at h; cases h
        | some em =>
          rw [hf] at h
          cases em with
          | none =>
            simp only at h
            cases hm : matchRemoteHeader l with
            | some nm2 => rw [hm] at h; exact ih _ _ h r hr
            | none => rw [hm] at h; exact ih _ _ h r hr
          | some r0 =>
            simp only at h
            have hcont :
                ∃ rs0, (match matchRemoteHeader l with
                  | some nm2 => scanRemotes (.inSection nm2 []) rest
                  | none => scanRemotes .looking rest) = some rs0 ∧ r0 :: rs0 = rs :=
              Option.map_eq_some'.mp h
            obtain ⟨rs0, hrs0, hcons⟩ := hcont
            have hr0 : ∃ o raw, parseOwnerRepo r0.url = some (o, raw)
                ∧ r0.repo_name = stripGitSuffix raw ∧ r0.repo_owner = o := by
              simp only [finishSection] at hf
              by_cases hu : url = []
              · rw [if_pos hu] at hf; cases hf
              · rw [if_neg hu] at hf
                cases hp : parseOwnerRepo url with
                | none => rw [hp] at hf; cases hf
                | some pr =>
                  rw [hp] at hf
                  obtain ⟨o, raw⟩ := pr
                  simp only [Option.some.injEq] at hf
                  obtain ⟨rfl⟩ := hf.symm
                  exact ⟨o, raw, hp, rfl, rfl⟩
            subst hcons
            rcases List.mem_cons.mp hr with hre | hrt
            · subst hre; exact hr0
            · cases hm : matchRemoteHeader l with
              | some nm2 => rw [hm] at hrs0; exact ih _ _ hrs0 r hrt
              | none => rw [hm] at hrs0; exact ih _ _ hrs0 r hrt
      · rw [if_neg hb] at h
        exact ih _ _ h r hr

/-- A repository name that still ends in `.git` after the single strip came
from a raw segment ending in `.git.git`. -/
theorem stripGitSuffix_still_git (raw : List Char)
    (h : (".git".data).isSuffixOf (stripGitSuffix raw) = true) :
    (".git.git".data).isSuffixOf raw = true := by
  by_cases hs : (".git".data).isSuffixOf raw = true
  · rw [stripGitSuffix, if_pos hs] at h
    rw [List.isSuffixOf_iff_suffix] at hs h ⊢
    obtain ⟨t, ht⟩ := hs
    have hlen : raw.length - 4 = t.length := by
      have h4 : (".git".data).length = 4 := rfl
      rw [← ht, List.length_append, h4]
      omega
    rw [hlen, ← ht, List.take_left] at h
    obtain ⟨u, hu⟩ := h
    refine ⟨u, ?_⟩
    have hgg : (".git.git".data : List Char) = ".git".data ++ ".git".data := by decide
    rw [hgg, ← List.append_assoc, hu, ht]
  · rw [stripGitSuffix, if_neg hs] at h
    exact absurd h hs

/-! ## Lemmas about the sort order -/

theorem charListLe_total (a b : List Char) : (charListLe a b || charListLe b a) = true := by
  induction a generalizing b with
  | nil => simp [charListLe]
  | cons x xs ih =>
    cases b with
    | nil => simp [charListLe]
    | cons y ys =>
      by_cases hxy : x = y
      · subst hxy
        simp only [charListLe, if_pos rfl]
        exact ih ys
      · have hyx : ¬y = x := fun h => hxy h.symm
        simp only [charListLe, if_neg hxy, if_neg hyx]
        rcases lt_or_gt_of_ne hxy with h | h
        · simp [h]
        · simp [h]

theorem charListLe_trans (a b c : List Char) (hab : charListLe a b = true)
    (hbc : charListLe b c = true) : charListLe a c = true := by
  induction a generalizing b c with
  | nil => simp [charListLe]
  | cons x xs ih =>
    cases b with
    | nil => simp [charListLe] at hab
    | cons y ys =>
      cases c with
      | nil => simp [charListLe] at hbc
      | cons z zs =>
        by_cases hxy : x = y
        · subst hxy
          rw [charListLe, if_pos rfl] at hab
          by_cases hyz : x = z
          · subst hyz
            rw [charListLe, if_pos rfl] at hbc ⊢
            exact ih ys zs hab hbc
          · rw [charListLe, if_neg hyz] at hbc ⊢
            exact hbc
        · rw [charListLe, if_neg hxy] at hab
          have hlt : x < y := of_decide_eq_true hab
          by_cases hyz : y = z
          · subst hyz
            rw [charListLe, if_neg hxy]
            exact hab
          · rw [charListLe, if_neg hyz] at hbc
            have hlt2 : y < z := of_decide_eq_true hbc
            have hxz : x < z := lt_trans hlt hlt2
            rw [charListLe, if_neg (ne_of_lt hxz)]
            exact decide_eq_true hxz

instance : IsTotal String pyOrder :=
  ⟨fun a b => (Bool.or_eq_true _ _).mp (charListLe_total a.data b.data)⟩

instance : IsTrans String pyOrder :=
  ⟨fun a b c hab hbc => charListLe_trans a.data b.data c.data hab hbc⟩

theorem pairwise_insertionSort (l : List String) :
    (l.insertionSort pyOrder).Pairwise pyOrder :=
  List.sorted_insertionSort pyOrder l

/-! ## Lemmas about the release client and the upload loop -/

/-- The request `__github_upload_asset` posts for a file that exists. -/
def uploadReqFor (release : GitHubRelease) (username token f : String) : NetRequest :=
  NetRequest.uploadAsset release.url_upload (String.mk (pyBasename f.data)) username token
    (if pySplitextExt f.data = ".gz".data then UploadBody.raw "application/gzip"
     else UploadBody.multipart "file" "file" "application/octet-stream")

theorem githubUploadAsset_exists (st : Nat) (b hd : String) (f : String)
    (rel : GitHubRelease) (u t : String) :
    githubUploadAsset true st b hd f rel u t
      = ((if st ≠ 201 then some (uploadFailMsg st b hd) else none),
         [uploadReqFor rel u t f]) := by
  by_cases hext : pySplitextExt f.data = ".gz".data
  · simp only [githubUploadAsset, uploadReqFor, hext, Bool.not_true, Bool.false_eq_true,
      if_false, if_true, if_pos]
    rw [if_neg (by decide : ¬("application/gzip" = "application/octet-stream"))]
    by_cases hst : st = 201 <;> simp [hst]
  · simp only [githubUploadAsset, uploadReqFor, Bool.not_true, Bool.false_eq_true, if_false,
      if_neg hext]
    by_cases hst : st = 201 <;> simp [hst]

/-- The request `__github_create_release` posts. -/
def createReqFor (remote : GitRemote) (version username token : String) (pre : Bool) :
    NetRequest :=
  NetRequest.createRelease
    ("https://api.github.com/repos/" ++ String.mk remote.repo_owner ++ "/"
      ++ String.mk remote.repo_name ++ "/releases") username token version "main" true pre

theorem githubCreateRelease_req (remote : GitRemote) (version username token : String)
    (pre : Bool) (resp : CreateResponse) :
    (githubCreateRelease remote version username token pre resp).2
      = createReqFor remote version username token pre := by
  by_cases h : resp.status ≠ 201 <;> simp [githubCreateRelease, createReqFor, h]

theorem githubCreateRelease_success (remote : GitRemote) (version username token : String)
    (pre : Bool) (resp : CreateResponse) (h : resp.status = 201) :
    (githubCreateRelease remote version username token pre resp).1
      = Sum.inl
          { uid := resp.uid, url := resp.url,
            url_upload := String.mk ((pySplit '{' resp.uploadUrl.data).headD []) } := by
  simp [githubCreateRelease, h]

theorem uploadAssets_requests (env : RunEnv) (rel : GitHubRelease) (u t : String)
    (fs : List String) (hex : ∀ f ∈ fs, env.fileExists f = true) :
    ∀ i, (uploadAssets env rel u t i fs).1 = fs.map (uploadReqFor rel u t) := by
  induction fs with
  | nil => intro i; rfl
  | cons f fs ih =>
    intro i
    simp only [uploadAssets]
    rw [hex f (by simp), githubUploadAsset_exists]
    simp only [List.map_cons]
    rw [ih (fun g hg => hex g (by simp [hg])) (i + 1)]
    simp

theorem uploadAssets_failed_block (env : RunEnv) (rel : GitHubRelease) (u t : String)
    (fs : List String) (f : String) (hf : f ∈ fs) (hex : env.fileExists f = true)
    (hst : env.uploadStatus f ≠ 201) :
    ∀ i, [" Failed.", uploadFailMsg (env.uploadStatus f) (env.uploadBody f) (env.uploadHeaders f)]
      <:+: (uploadAssets env rel u t i fs).2 := by
  induction fs with
  | nil => cases hf
  | cons g fs ih =>
    intro i
    rcases List.mem_cons.mp hf with h1 | h2
    · subst h1
      simp only [uploadAssets]
      rw [hex, githubUploadAsset_exists, if_pos hst]
      exact ⟨["  " ++ toString (i + 1) ++ ". Uploading '" ++ String.mk (pyBasename f.data)
        ++ "'..."], (uploadAssets env rel u t (i + 1) fs).2, by simp⟩
    · exact (ih h2 (i + 1)).trans
        (by simp only [uploadAssets]; exact (List.suffix_append _ _).isInfix)

theorem uploadAssets_done_mem (env : RunEnv) (rel : GitHubRelease) (u t : String)
    (fs : List String) (f : String) (hf : f ∈ fs) (hex : env.fileExists f = true)
    (hst : env.uploadStatus f = 201) :
    ∀ i, " Done." ∈ (uploadAssets env rel u t i fs).2 := by
  induction fs with
  | nil => cases hf
  | cons g fs ih =>
    intro i
    rcases List.mem_cons.mp hf with h1 | h2
    · subst h1
      simp only [uploadAssets]
      rw [hex, githubUploadAsset_exists]
      simp [hst]
    · simp only [uploadAssets]
      exact List.mem_append.mpr (Or.inr (ih h2 (i + 1)))

/-! ## Further helpers used by the claim theorems -/

/-- The raw repository segment the extraction derives from a URL (the text
the single `.git` strip is applied to). -/
def rawRepoSegment (url : List Char) : List Char :=
  ((parseOwnerRepo url).getD ([], [])).2

theorem stripGitSuffix_append (t : List Char) : stripGitSuffix (t ++ ".git".data) = t := by
  rw [stripGitSuffix, if_pos (List.isSuffixOf_iff_suffix.mpr ⟨t, rfl⟩)]
  have h4 : (".git".data).length = 4 := rfl
  rw [List.length_append, h4]
  have hl : t.length + 4 - 4 = t.length := by omega
  rw [hl]
  exact List.take_left t _

/-- Evaluation of the short version on a string with a hyphen: the segment
between the first and second hyphen decides the outcome. -/
theorem shortVersionOf_hyphen (p s : List Char) (hp : '-' ∉ p) :
    shortVersionOf (String.mk (p ++ '-' :: s))
      = match s.takeWhile (neChar '-') with
        | [] => none
        | c :: cs => some (String.mk (p ++ [c] ++ (c :: cs).filter pyIsNumeric)) := by
  have hdata : (String.mk (p ++ '-' :: s)).data = p ++ '-' :: s := rfl
  have hmem : '-' ∈ (String.mk (p ++ '-' :: s)).data := by rw [hdata]; simp
  rw [shortVersionOf, if_pos hmem]
  have hsplit : pySplit '-' (p ++ '-' :: s) = p :: pySplit '-' s := by
    rw [pySplit_sep_append, pySplit_not_mem '-' p hp, List.singleton_append]
  simp only [hdata, hsplit]
  cases hs : pySplit '-' s with
  | nil => exact absurd hs (pySplit_ne_nil _ _)
  | cons h t =>
    have hh : h = s.takeWhile (neChar '-') := by
      have hhd := headD_pySplit '-' s
      rw [hs] at hhd
      simpa using hhd
    simp only [List.getD_cons_succ, List.getD_cons_zero, List.headD_cons]
    rw [← hh]

/-! ## Claim theorems -/

/-- C1: the claim says the parser handles a remote section that extends to
the last input line without error; in fact the inner loop reads past the end
of the input there (`IndexError`, modelled as `none`), while the same
section followed by another bracketed header parses fine. -/
theorem c1_remote_section_at_end_crashes :
    findGitRemotes
      ["[remote \"origin\"]\n".data, "\turl = git@github.com:o/r.git\n".data] = none
    ∧ findGitRemotes
        ["[remote \"origin\"]\n".data, "\turl = git@github.com:o/r.git\n".data,
         "[branch]\n".data]
      = some [⟨"origin".data, "git@github.com:o/r.git".data, "r".data, "o".data⟩] :=
  ⟨by decide, by decide⟩

/-- C6 (counterexample): a URL whose final segment ends in `.git.git` is
stripped only once, so the produced descriptor's repository name still ends
with `.git`, refuting the claimed invariant. -/
theorem c6_repo_name_git_counterexample :
    findGitRemotes
      ["[remote \"origin\"]\n".data, "\turl = https://github.com/o/r.git.git\n".data,
       "[branch]\n".data]
      = some [⟨"origin".data, "https://github.com/o/r.git.git".data, "r.git".data, "o".data⟩]
    ∧ (".git".data).isSuffixOf "r.git".data = true :=
  ⟨by decide, by decide⟩

/-- C6 (amended): the trailing `.git` of the extracted repository segment is
stripped exactly once before the descriptor is constructed, so a produced
`repo_name` can end with `.git` only when the raw segment ended with
`.git.git`, and it always equals the once-stripped raw segment. -/
theorem c6_git_suffix_stripped_once (lines : List (List Char)) (rs : List GitRemote)
    (r : GitRemote) (h : findGitRemotes lines = some rs) (hr : r ∈ rs)
    (hg : (".git".data).isSuffixOf r.repo_name = true) :
    (".git.git".data).isSuffixOf (rawRepoSegment r.url) = true
    ∧ r.repo_name = stripGitSuffix (rawRepoSegment r.url) := by
  obtain ⟨o, raw, hp, hn, ho⟩ := scanRemotes_fields lines .looking rs h r hr
  have hraw : rawRepoSegment r.url = raw := by simp [rawRepoSegment, hp]
  refine ⟨?_, by rw [hraw, ← hn]⟩
  rw [hraw]
  exact stripGitSuffix_still_git raw (by rw [← hn]; exact hg)

/-- C6 (amended, witness): the amended statement evaluated on the
`.git.git` configuration. -/
theorem c6_git_suffix_stripped_once_witness :
    (".git.git".data).isSuffixOf (rawRepoSegment "https://github.com/o/r.git.git".data) = true
    ∧ ("r.git".data : List Char)
        = stripGitSuffix (rawRepoSegment "https://github.com/o/r.git.git".data) :=
  c6_git_suffix_stripped_once
    ["[remote \"origin\"]\n".data, "\turl = https://github.com/o/r.git.git\n".data,
     "[branch]\n".data]
    [⟨"origin".data, "https://github.com/o/r.git.git".data, "r.git".data, "o".data⟩]
    ⟨"origin".data, "https://github.com/o/r.git.git".data, "r.git".data, "o".data⟩
    (by decide) (by decide) (by decide)

/-- C7 (counterexample): computing the short version of `"1.2.0-"` — a
string that ends in a hyphen — raises (`split_version[1][0]` on an empty
segment), refuting the claim that normalization never throws. -/
theorem c7_short_version_crash : shortVersionOf "1.2.0-" = none := by decide

/-- C7 (amended): version normalization is total except when the input
contains a hyphen and the segment between the first hyphen and the next
hyphen (or the end) is empty: a hyphen-free string is returned unchanged, a
hyphenated string with a nonempty first suffix segment produces a result,
and an empty first suffix segment raises. -/
theorem c7_short_version_totality (v : String) (p s : List Char) :
    ('-' ∉ v.data → shortVersionOf v = some v)
    ∧ ('-' ∉ p → v = String.mk (p ++ '-' :: s) →
        s.takeWhile (neChar '-') ≠ [] → (shortVersionOf v).isSome = true)
    ∧ ('-' ∉ p → v = String.mk (p ++ '-' :: s) →
        s.takeWhile (neChar '-') = [] → shortVersionOf v = none) := by
  refine ⟨?_, ?_, ?_⟩
  · intro h
    simp [shortVersionOf, h]
  · intro hp hv hne
    subst hv
    rw [shortVersionOf_hyphen p s hp]
    cases hts : s.takeWhile (neChar '-') with
    | nil => exact absurd hts hne
    | cons c cs => simp
  · intro hp hv hts
    subst hv
    rw [shortVersionOf_hyphen p s hp, hts]

/-- C7 (amended, witness): the three cases at concrete versions. -/
theorem c7_short_version_totality_witness :
    shortVersionOf "1.2.0" = some "1.2.0"
    ∧ (shortVersionOf "1.2.0-alpha.3").isSome = true
    ∧ shortVersionOf "1.2.0-" = none :=
  ⟨(c7_short_version_totality "1.2.0" [] []).1 (by decide),
   (c7_short_version_totality "1.2.0-alpha.3" "1.2.0".data "alpha.3".data).2.1
     (by decide) rfl (by decide),
   (c7_short_version_totality "1.2.0-" "1.2.0".data []).2.2 (by decide) rfl (by decide)⟩

/-- C8: the tag is `"v"` ++ the full version; the short version of a
hyphen-free string is the string itself, and of `prefix-hyphen-suffix` it is
the prefix, the first character of the hyphen-delimited segment after the
first hyphen, then that segment's numeric characters; in particular
`1.2.0 ↦ (v1.2.0, 1.2.0)` and `1.2.0-alpha.3 ↦ 1.2.0a3`. -/
theorem c8_version_normalization (v : String) (p s : List Char) (c : Char) (cs : List Char) :
    tagVersion v = "v" ++ v
    ∧ ('-' ∉ v.data → shortVersionOf v = some v)
    ∧ ('-' ∉ p → s.takeWhile (neChar '-') = c :: cs →
        shortVersionOf (String.mk (p ++ '-' :: s))
          = some (String.mk (p ++ [c] ++ (c :: cs).filter pyIsNumeric)))
    ∧ shortVersionOf "1.2.0" = some "1.2.0"
    ∧ shortVersionOf "1.2.0-alpha.3" = some "1.2.0a3"
    ∧ tagVersion "1.2.0" = "v1.2.0" := by
  refine ⟨rfl, ?_, ?_, by decide, by decide, rfl⟩
  · intro h
    simp [shortVersionOf, h]
  · intro hp hts
    rw [shortVersionOf_hyphen p s hp, hts]

/-- C8 (witness): the general suffix rule applied at `1.0-beta.2`. -/
theorem c8_version_normalization_witness :
    shortVersionOf (String.mk ("1.0".data ++ '-' :: "beta.2".data))
      = some (String.mk ("1.0".data ++ ['b'] ++ ('b' :: "eta.2".data).filter pyIsNumeric)) :=
  (c8_version_normalization "1.0" "1.0".data "beta.2".data 'b' "eta.2".data).2.2.1
    (by decide) (by decide)

/-- C10: the value a url line records is the stripped text after the line's
last `=` (not everything after the key's `=`), so a url value containing `=`
is truncated to the text after its final `=` — concretely, a credentialed
url `https://token=abc@host/o/r.git` is stored as `abc@host/o/r.git`. -/
theorem c10_value_after_last_equals (url l : List Char) :
    (isUrlLine l = true →
      updateUrl url l = pyStrip ((l.reverse.takeWhile (neChar '=')).reverse))
    ∧ findGitRemotes
        ["[remote \"origin\"]\n".data, "\turl = https://token=abc@host/o/r.git\n".data,
         "[branch]\n".data]
      = some [⟨"origin".data, "abc@host/o/r.git".data, "r".data, "o".data⟩] := by
  constructor
  · intro h
    rw [updateUrl, if_pos h, urlValueOf, getLastD_pySplit]
  · decide

/-- C10 (witness): the recorded value of a concrete url line. -/
theorem c10_value_after_last_equals_witness :
    updateUrl [] "\turl = https://token=abc@host/o/r.git\n".data
      = pyStrip ((("\turl = https://token=abc@host/o/r.git\n".data).reverse.takeWhile
          (neChar '=')).reverse) :=
  (c10_value_after_last_equals [] "\turl = https://token=abc@host/o/r.git\n".data).1
    (by decide)

/-- C4: for a remote section whose last url line is `l` (any lines, url or
not, may precede it; no url line follows it before the closing bracketed
line), the produced descriptor's url is the value of `l` — a later `url =`
assignment overwrites any earlier one. -/
theorem c4_last_url_wins (hdr nm l stop : List Char) (sec post : List (List Char))
    (o raw : List Char)
    (hhdr : matchRemoteHeader hdr = some nm)
    (hsec : ∀ x ∈ sec, ("[".data).isPrefixOf x = false)
    (hl : ("[".data).isPrefixOf l = false) (hlu : isUrlLine l = true)
    (hpost : ∀ x ∈ post, ("[".data).isPrefixOf x = false)
    (hpostu : ∀ x ∈ post, isUrlLine x = false)
    (hstop : ("[".data).isPrefixOf stop = true) (hstoph : matchRemoteHeader stop = none)
    (hval : urlValueOf l ≠ [])
    (hparse : parseOwnerRepo (urlValueOf l) = some (o, raw)) :
    findGitRemotes (hdr :: (sec ++ l :: (post ++ [stop])))
      = some [⟨nm, urlValueOf l, stripGitSuffix raw, o⟩] := by
  rw [findGitRemotes]
  have h1 : scanRemotes .looking (hdr :: (sec ++ l :: (post ++ [stop])))
      = scanRemotes (.inSection nm []) (sec ++ l :: (post ++ [stop])) := by
    simp [scanRemotes, hhdr]
  rw [h1, scanRemotes_section_append nm sec [] _ hsec,
    scanRemotes_section_cons _ _ _ _ hl]
  have h2 : updateUrl (sec.foldl updateUrl []) l = urlValueOf l := by
    rw [updateUrl, if_pos hlu]
  rw [h2, scanRemotes_section_append nm post (urlValueOf l) _ hpost,
    foldl_updateUrl_no_url _ post hpostu]
  simp [scanRemotes, hstop, finishSection, hval, hparse, hstoph]

/-- C4 (witness): a section with two url lines parses to the value of the
second one. -/
theorem c4_last_url_wins_witness :
    findGitRemotes
      ["[remote \"origin\"]\n".data, "\turl = https://h/x/y.git\n".data,
       "\turl = git@h:o/r.git\n".data, "\tfetch = +refs\n".data, "[branch \"main\"]\n".data]
      = some [⟨"origin".data, "git@h:o/r.git".data, "r".data, "o".data⟩] :=
  c4_last_url_wins "[remote \"origin\"]\n".data "origin".data
    "\turl = git@h:o/r.git\n".data "[branch \"main\"]\n".data
    ["\turl = https://h/x/y.git\n".data] ["\tfetch = +refs\n".data]
    "o".data "r.git".data
    (by decide) (by decide) (by decide) (by decide) (by decide) (by decide)
    (by decide) (by decide) (by decide) (by decide)

/-- C5: owner and repository extraction is scheme-dependent: for an SSH-form
url `git@host:owner/repo.git` the owner is the segment after the colon and
before the first slash and the repository is the segment after that slash
with `.git` stripped; for a non-SSH (HTTPS-form) url the owner and the raw
repository are the last two slash-delimited segments; and the spec's example
`git@host:owner/repo.git` parses to owner `owner`, name `repo`. -/
theorem c5_owner_repo_extraction (host owner repo pre : List Char)
    (hoc : ':' ∉ owner) (hrc : ':' ∉ repo) (hos : '/' ∉ owner) (hrs : '/' ∉ repo) :
    (parseOwnerRepo ("git@".data ++ host ++ ':' :: (owner ++ '/' :: (repo ++ ".git".data)))
        = some (owner, repo ++ ".git".data)
      ∧ stripGitSuffix (repo ++ ".git".data) = repo)
    ∧ (("git@".data).isPrefixOf (pre ++ '/' :: (owner ++ '/' :: (repo ++ ".git".data)))
          = false →
        parseOwnerRepo (pre ++ '/' :: (owner ++ '/' :: (repo ++ ".git".data)))
          = some (owner, repo ++ ".git".data))
    ∧ findGitRemotes
        ["[remote \"origin\"]\n".data, "\turl = git@host:owner/repo.git\n".data, "[a]\n".data]
      = some [⟨"origin".data, "git@host:owner/repo.git".data, "repo".data, "owner".data⟩] := by
  have hsegs : pySplit '/' (owner ++ '/' :: (repo ++ ".git".data))
      = [owner, repo ++ ".git".data] := by
    rw [pySplit_sep_append, pySplit_not_mem '/' owner hos,
      pySplit_not_mem '/' (repo ++ ".git".data)
        (by simp [hrs, List.mem_append, (by decide : '/' ∉ ".git".data)])]
    rfl
  refine ⟨⟨?_, stripGitSuffix_append repo⟩, ?_, by decide⟩
  · have hpfx : ("git@".data).isPrefixOf
        ("git@".data ++ host ++ ':' :: (owner ++ '/' :: (repo ++ ".git".data))) = true :=
      List.isPrefixOf_iff_prefix.mpr ⟨host ++ ':' :: (owner ++ '/' :: (repo ++ ".git".data)),
        by simp⟩
    rw [parseOwnerRepo, if_pos hpfx]
    have hcolon : pySplit ':'
        ("git@".data ++ host ++ ':' :: (owner ++ '/' :: (repo ++ ".git".data)))
        = pySplit ':' ("git@".data ++ host)
          ++ [owner ++ '/' :: (repo ++ ".git".data)] := by
      rw [pySplit_sep_append ':' ("git@".data ++ host) (owner ++ '/' :: (repo ++ ".git".data)),
        pySplit_not_mem ':' (owner ++ '/' :: (repo ++ ".git".data))
          (by simp [hoc, hrc, List.mem_append, List.mem_cons,
            (by decide : ':' ∉ ".git".data), (by decide : ¬(':' = '/'))])]
    rw [hcolon, List.getLastD_concat, hsegs]
  · intro hnossh
    rw [parseOwnerRepo]
    rw [if_neg (by rw [hnossh]; exact Bool.false_ne_true)]
    have hsp : pySplit '/' (pre ++ '/' :: (owner ++ '/' :: (repo ++ ".git".data)))
        = pySplit '/' pre ++ [owner, repo ++ ".git".data] := by
      rw [pySplit_sep_append, hsegs]
    rw [hsp]
    have hrev : (pySplit '/' pre ++ [owner, repo ++ ".git".data]).reverse
        = (repo ++ ".git".data) :: owner :: (pySplit '/' pre).reverse := by
      simp
    rw [hrev]

/-- C5 (witness): extraction at concrete SSH and HTTPS urls. -/
theorem c5_owner_repo_extraction_witness :
    (parseOwnerRepo
        ("git@".data ++ "github.com".data
          ++ ':' :: ("owner".data ++ '/' :: ("repo".data ++ ".git".data)))
        = some ("owner".data, "repo".data ++ ".git".data)
      ∧ stripGitSuffix ("repo".data ++ ".git".data) = "repo".data)
    ∧ parseOwnerRepo
        ("https://host".data ++ '/' :: ("owner".data ++ '/' :: ("repo".data ++ ".git".data)))
        = some ("owner".data, "repo".data ++ ".git".data) :=
  ⟨(c5_owner_repo_extraction "github.com".data "owner".data "repo".data "https://host".data
      (by decide) (by decide) (by decide) (by decide)).1,
   (c5_owner_repo_extraction "github.com".data "owner".data "repo".data "https://host".data
      (by decide) (by decide) (by decide) (by decide)).2.1 (by decide)⟩

/-- C9: for a file that exists, the upload request's body is chosen purely
by extension — a `.gz` extension maps to the gzip media type sent as a raw
body with an explicit Content-Type, every other extension to octet-stream
multipart form data under the field `file` — and the asset's name query
parameter is the file's base name in either case. -/
theorem c9_content_negotiation (st : Nat) (b hd : String) (asset : String)
    (rel : GitHubRelease) (u t : String) :
    (pySplitextExt asset.data = ".gz".data →
      (githubUploadAsset true st b hd asset rel u t).2
        = [NetRequest.uploadAsset rel.url_upload (String.mk (pyBasename asset.data)) u t
            (UploadBody.raw "application/gzip")])
    ∧ (pySplitextExt asset.data ≠ ".gz".data →
      (githubUploadAsset true st b hd asset rel u t).2
        = [NetRequest.uploadAsset rel.url_upload (String.mk (pyBasename asset.data)) u t
            (UploadBody.multipart "file" "file" "application/octet-stream")]) := by
  constructor
  · intro h
    rw [githubUploadAsset_exists]
    simp [uploadReqFor, h]
  · intro h
    rw [githubUploadAsset_exists]
    simp [uploadReqFor, h]

/-- C9 (witness): a source archive goes out as a raw gzip body, a wheel as
octet-stream multipart, each named by its base name. -/
theorem c9_content_negotiation_witness :
    (githubUploadAsset true 201 "" "" "dist/pkg-1.0.0.tar.gz" ⟨1, "u", "up"⟩ "user" "tok").2
      = [NetRequest.uploadAsset "up" "pkg-1.0.0.tar.gz" "user" "tok"
          (UploadBody.raw "application/gzip")]
    ∧ (githubUploadAsset true 201 "" "" "dist/pkg-1.0.0-py3-none-any.whl" ⟨1, "u", "up"⟩
        "user" "tok").2
      = [NetRequest.uploadAsset "up" "pkg-1.0.0-py3-none-any.whl" "user" "tok"
          (UploadBody.multipart "file" "file" "application/octet-stream")] :=
  ⟨(c9_content_negotiation 201 "" "" "dist/pkg-1.0.0.tar.gz" ⟨1, "u", "up"⟩ "user" "tok").1
      (by decide),
   (c9_content_negotiation 201 "" "" "dist/pkg-1.0.0-py3-none-any.whl" ⟨1, "u", "up"⟩
      "user" "tok").2 (by decide)⟩

/-- C2: the orchestrator's exit codes under each gate, with the network
requests it has issued at that point: 1 (missing version), 2 (no git
config), 3 (zero remotes), 99 (several remotes) and 4 (missing token) all
return before any network request (empty request list); a non-201 release
creation returns 5 having issued exactly the one creation request; a 201
response leads to exit code 0. -/
theorem c2_exit_codes (env : RunEnv) :
    (env.version = none →
      handle env = some (1, [], ["Missing 'version' field in configuration."]))
    ∧ (∀ v sv, env.version = some v → shortVersionOf v = some sv →
        env.hasGitConfig = false →
        handle env = some (2, [], ["Working directory is not a git repository."]))
    ∧ (∀ v sv, env.version = some v → shortVersionOf v = some sv →
        env.hasGitConfig = true → findGitRemotes env.gitConfigLines = some [] →
        handle env = some (3, [], ["Found 0 git remotes."]))
    ∧ (∀ v sv r1 r2 rs, env.version = some v → shortVersionOf v = some sv →
        env.hasGitConfig = true →
        findGitRemotes env.gitConfigLines = some (r1 :: r2 :: rs) →
        handle env = some (99, [],
          ["Found multiple git remotes, which is currently not supported."]))
    ∧ (∀ v sv r, env.version = some v → shortVersionOf v = some sv →
        env.hasGitConfig = true → findGitRemotes env.gitConfigLines = some [r] →
        env.githubToken = none → handle env = some (4, [], [tokenMissingMsg]))
    ∧ (∀ v sv r tok, env.version = some v → shortVersionOf v = some sv →
        env.hasGitConfig = true → findGitRemotes env.gitConfigLines = some [r] →
        env.githubToken = some tok → env.createResp.status ≠ 201 →
        (handle env).map (fun x => x.1) = some 5
        ∧ (handle env).map (fun x => x.2.1)
            = some [createReqFor r (tagVersion v) env.gitUsername tok env.preRelease])
    ∧ (∀ v sv r tok, env.version = some v → shortVersionOf v = some sv →
        env.hasGitConfig = true → findGitRemotes env.gitConfigLines = some [r] →
        env.githubToken = some tok → env.createResp.status = 201 →
        (handle env).map (fun x => x.1) = some 0) := by
  refine ⟨?_, ?_, ?_, ?_, ?_, ?_, ?_⟩
  · intro h1
    simp [handle, h1]
  · intro v sv h1 h2 h3
    simp [handle, h1, h2, h3]
  · intro v sv h1 h2 h3 h4
    simp [handle, h1, h2, h3, h4]
  · intro v sv r1 r2 rs h1 h2 h3 h4
    simp [handle, h1, h2, h3, h4]
  · intro v sv r h1 h2 h3 h4 h5
    simp [handle, h1, h2, h3, h4, h5]
  · intro v sv r tok h1 h2 h3 h4 h5 h6
    constructor
    · simp [handle, h1, h2, h3, h4, h5, githubCreateRelease, h6]
    · simp [handle, h1, h2, h3, h4, h5, githubCreateRelease, createReqFor, h6]
  · intro v sv r tok h1 h2 h3 h4 h5 h6
    simp [handle, h1, h2, h3, h4, h5, githubCreateRelease, h6]

/-- A concrete environment on which every gate passes: a version, a git
config with one SSH remote, a token, a 201 creation response, and no built
files. -/
def baseEnv : RunEnv where
  version := some "1.0.0"
  hasGitConfig := true
  gitConfigLines :=
    ["[remote \"origin\"]\n".data, "\turl = git@github.com:o/r.git\n".data, "[a]\n".data]
  githubToken := some "tok"
  gitUsername := "user"
  preRelease := false
  createResp := ⟨201, "", 7, "https://api.github.com/repos/o/r/releases/1",
    "https://uploads.github.com/repos/o/r/releases/1/assets\x7b?name,label\x7d"⟩
  fileExists := fun _ => true
  uploadStatus := fun _ => 201
  uploadBody := fun _ => ""
  uploadHeaders := fun _ => ""
  wheels := fun _ => []
  tars := fun _ => []

/-- The single remote descriptor `baseEnv`'s configuration parses to. -/
def baseRemote : GitRemote :=
  ⟨"origin".data, "git@github.com:o/r.git".data, "r".data, "o".data⟩

/-- C2 (witness): each exit code reached on a concrete environment. -/
theorem c2_exit_codes_witness :
    handle { baseEnv with version := none }
      = some (1, [], ["Missing 'version' field in configuration."])
    ∧ handle { baseEnv with hasGitConfig := false }
      = some (2, [], ["Working directory is not a git repository."])
    ∧ handle { baseEnv with gitConfigLines := [] } = some (3, [], ["Found 0 git remotes."])
    ∧ handle { baseEnv with gitConfigLines :=
        ["[remote \"one\"]\n".data, "\turl = git@h:a/b.git\n".data,
         "[remote \"two\"]\n".data, "\turl = git@h:c/d.git\n".data, "[x]\n".data] }
      = some (99, [], ["Found multiple git remotes, which is currently not supported."])
    ∧ handle { baseEnv with githubToken := none } = some (4, [], [tokenMissingMsg])
    ∧ (handle { baseEnv with createResp := ⟨422, "err", 0, "", ""⟩ }).map (fun x => x.1)
        = some 5
    ∧ (handle baseEnv).map (fun x => x.1) = some 0 :=
  ⟨(c2_exit_codes _).1 rfl,
   (c2_exit_codes _).2.1 "1.0.0" "1.0.0" rfl (by decide) rfl,
   (c2_exit_codes _).2.2.1 "1.0.0" "1.0.0" rfl (by decide) rfl (by decide),
   (c2_exit_codes _).2.2.2.1 "1.0.0" "1.0.0"
     ⟨"one".data, "git@h:a/b.git".data, "b".data, "a".data⟩
     ⟨"two".data, "git@h:c/d.git".data, "d".data, "c".data⟩ []
     rfl (by decide) rfl (by decide),
   (c2_exit_codes _).2.2.2.2.1 "1.0.0" "1.0.0" baseRemote rfl (by decide) rfl (by decide) rfl,
   ((c2_exit_codes _).2.2.2.2.2.1 "1.0.0" "1.0.0" baseRemote "tok" rfl (by decide) rfl
     (by decide) rfl (by decide)).1,
   (c2_exit_codes _).2.2.2.2.2.2 "1.0.0" "1.0.0" baseRemote "tok" rfl (by decide) rfl
     (by decide) rfl rfl⟩

/-- The release object built from a 201 creation response (`upload_url` cut
at the first `\x7b`). -/
def releaseOf (resp : CreateResponse) : GitHubRelease where
  uid := resp.uid
  url := resp.url
  url_upload := String.mk ((pySplit '{' resp.uploadUrl.data).headD [])

/-- C3: once release creation has returned 201, the run's exit code is 0
whatever the per-file upload outcomes; the artifact list is sorted and one
upload request is issued per artifact in that order; every failing upload
contributes a " Failed." line followed by its error detail, and every
succeeding one a " Done." line. -/
theorem c3_upload_failures_nonfatal (env : RunEnv) (v sv tok : String) (r : GitRemote)
    (h1 : env.version = some v) (h2 : shortVersionOf v = some sv)
    (h3 : env.hasGitConfig = true) (h4 : findGitRemotes env.gitConfigLines = some [r])
    (h5 : env.githubToken = some tok) (h6 : env.createResp.status = 201)
    (hex : ∀ f, env.fileExists f = true) :
    (handle env).map (fun x => x.1) = some 0
    ∧ (getBuiltFiles env sv).Pairwise pyOrder
    ∧ (handle env).map (fun x => x.2.1)
        = some (createReqFor r (tagVersion v) env.gitUsername tok env.preRelease
            :: (getBuiltFiles env sv).map
                (uploadReqFor (releaseOf env.createResp) env.gitUsername tok))
    ∧ (∀ f ∈ getBuiltFiles env sv, env.uploadStatus f ≠ 201 →
        [" Failed.",
         uploadFailMsg (env.uploadStatus f) (env.uploadBody f) (env.uploadHeaders f)]
          <:+: ((handle env).map (fun x => x.2.2)).getD [])
    ∧ (∀ f ∈ getBuiltFiles env sv, env.uploadStatus f = 201 →
        " Done." ∈ ((handle env).map (fun x => x.2.2)).getD []) := by
  have hh : handle env
      = some (0,
        (githubCreateRelease r (tagVersion v) env.gitUsername tok env.preRelease
            env.createResp).2
          :: (uploadAssets env (releaseOf env.createResp) env.gitUsername tok 0
              (getBuiltFiles env sv)).1,
        (releaseCreatedLines r v
          ++ (if (getBuiltFiles env sv).length > 0
              then [attachCountMsg (getBuiltFiles env sv).length] else []))
          ++ (uploadAssets env (releaseOf env.createResp) env.gitUsername tok 0
              (getBuiltFiles env sv)).2) := by
    simp [handle, h1, h2, h3, h4, h5, githubCreateRelease, h6, releaseOf]
  refine ⟨?_, pairwise_insertionSort _, ?_, ?_, ?_⟩
  · rw [hh]
    rfl
  · rw [hh]
    simp only [Option.map_some']
    rw [githubCreateRelease_req,
      uploadAssets_requests env (releaseOf env.createResp) env.gitUsername tok
        (getBuiltFiles env sv) (fun f _ => hex f) 0]
  · intro f hf hst
    rw [hh]
    simp only [Option.map_some', Option.getD_some]
    exact (uploadAssets_failed_block env (releaseOf env.createResp) env.gitUsername tok
      (getBuiltFiles env sv) f hf (hex f) hst 0).trans (List.suffix_append _ _).isInfix
  · intro f hf hst
    rw [hh]
    simp only [Option.map_some', Option.getD_some]
    exact List.mem_append.mpr (Or.inr (uploadAssets_done_mem env (releaseOf env.createResp)
      env.gitUsername tok (getBuiltFiles env sv) f hf (hex f) hst 0))

/-- The C3 environment: two located artifacts, the source archive's upload
failing with 500 and the wheel's succeeding. -/
def c3Env : RunEnv :=
  { baseEnv with
    wheels := fun _ => ["dist/pkg-1.0.0-py3-none-any.whl"],
    tars := fun _ => ["dist/pkg-1.0.0.tar.gz"],
    uploadStatus := fun f => if f = "dist/pkg-1.0.0.tar.gz" then 500 else 201 }

/-- C3 (witness): on `c3Env` the run exits 0 with both a " Failed." block
and a " Done." line. -/
theorem c3_upload_failures_nonfatal_witness :
    (handle c3Env).map (fun x => x.1) = some 0
    ∧ [" Failed.", uploadFailMsg 500 "" ""]
        <:+: ((handle c3Env).map (fun x => x.2.2)).getD []
    ∧ " Done." ∈ ((handle c3Env).map (fun x => x.2.2)).getD [] := by
  have h := c3_upload_failures_nonfatal c3Env "1.0.0" "1.0.0" "tok" baseRemote rfl
    (by decide) rfl (by decide) rfl rfl (fun f => rfl)
  exact ⟨h.1,
    h.2.2.2.1 "dist/pkg-1.0.0.tar.gz" (by decide) (by decide),
    h.2.2.2.2 "dist/pkg-1.0.0-py3-none-any.whl" (by decide) (by decide)⟩
